import Mathlib

/-!
Verification of the tic-tac-toe game-over detection core and move engine.

The development shallowly embeds two layers of the repository:

* `Base` — the implemented interactive-gameplay engine:
  `src/models/board.ts`, `src/models/game-state.ts`,
  `src/constants/game-config.ts`, `src/engine/move-validator.ts`,
  `src/engine/state-transitions.ts`.
* `Core` — the game-over detection core (win detector, status state
  machine, extended move gate): `win-detector.ts`, the extended
  `state-transitions.ts` `processMove`, the extended `move-validator.ts`
  `validateMove`, and the `WIN_PATTERNS` table, as given in the
  003-game-over-detection implementation plan and data model.

TypeScript `number` coordinates are embedded as `Int`, `X | O | null`
cell contents as `Option PlayerSymbol`, and early-return loops as
`List.find?` / `List.all` over the same iteration order.
-/

/-- Zero-based cell coordinates, `CellPosition` of `src/models/board.ts`. -/
structure CellPosition where
  row : Int
  col : Int
deriving DecidableEq, Repr

/-- `PlayerSymbol` of `src/constants/game-config.ts`. -/
inductive PlayerSymbol where
  | X
  | O
deriving DecidableEq, Repr

namespace Base

/-- `GamePieceValue = "X" | "O" | null`. -/
abbrev GamePieceValue := Option PlayerSymbol

/-- `Cell` of `src/models/board.ts`: a value together with its position. -/
structure Cell where
  value : GamePieceValue
  position : CellPosition
deriving DecidableEq, Repr

/-- `Board` of `src/models/board.ts`: a flat cell list plus the grid size. -/
structure Board where
  cells : List Cell
  size : Nat
deriving DecidableEq, Repr

/-- `createEmptyBoard` of `src/models/board.ts`. -/
def createEmptyBoard (size : Nat) : Board :=
  { cells :=
      (List.range size).flatMap (fun row =>
        (List.range size).map (fun col =>
          { value := none, position := { row := row, col := col } })),
    size := size }

/-- `GameState` of `src/models/game-state.ts` (interactive gameplay; no status). -/
structure GameState where
  board : Board
  currentTurn : PlayerSymbol
  moveInProgress : Bool
deriving DecidableEq, Repr

/-- `MoveFailureReason` of `src/constants/game-config.ts`. -/
inductive MoveFailureReason where
  | cellOccupied
  | moveInProgress
  | invalidPosition
  | boardFull
deriving DecidableEq, Repr

/-- `MoveResult` of `src/models/game-state.ts`. -/
inductive MoveResult where
  | success
  | failure (reason : MoveFailureReason)
deriving DecidableEq, Repr

/-- `validateMove` of `src/engine/move-validator.ts`: move-in-progress lock,
bounds check, then occupancy of the cell found at the target position. -/
def validateMove (state : GameState) (position : CellPosition) : MoveResult :=
  if state.moveInProgress then
    .failure .moveInProgress
  else if position.row < 0 ∨ position.row ≥ (state.board.size : Int) ∨
      position.col < 0 ∨ position.col ≥ (state.board.size : Int) then
    .failure .invalidPosition
  else
    match state.board.cells.find? (fun c =>
        decide (c.position.row = position.row) &&
        decide (c.position.col = position.col)) with
    | some cell => if cell.value ≠ none then .failure .cellOccupied else .success
    | none => .success

/-- `switchTurn` of `src/engine/state-transitions.ts`. -/
def switchTurn (current : PlayerSymbol) : PlayerSymbol :=
  match current with
  | .X => .O
  | .O => .X

/-- `updateBoardWithMove` of `src/engine/state-transitions.ts`: map over the
cells, replacing the value of every cell whose position matches. -/
def updateBoardWithMove (board : Board) (position : CellPosition)
    (symbol : PlayerSymbol) : Board :=
  { board with
    cells := board.cells.map (fun cell =>
      if cell.position.row = position.row ∧ cell.position.col = position.col then
        { cell with value := some symbol }
      else
        cell) }

/-- `processMove` of `src/engine/state-transitions.ts` (interactive gameplay
version): validate, place the mark, switch the turn. -/
def processMove (state : GameState) (position : CellPosition) : GameState :=
  match validateMove state position with
  | .failure _ => state
  | .success =>
    { board := updateBoardWithMove state.board position state.currentTurn,
      currentTurn := switchTurn state.currentTurn,
      moveInProgress := false }

end Base

namespace Core

/-- `GameStatus` of the game-over detection data model. -/
inductive GameStatus where
  | ACTIVE
  | X_WON
  | O_WON
  | DRAW
deriving DecidableEq, Repr

/-- A grid cell of the detection core: `cell.piece` is `X`, `O`, or `null`. -/
structure Cell where
  piece : Option PlayerSymbol
deriving DecidableEq, Repr

/-- The detection core addresses the board as a grid of rows
(`board.length`, `getCell(board, row, col)`). -/
abbrev Board := List (List Cell)

/-- `GRID_SIZE` of `GAME_CONFIG` in `src/constants/game-config.ts`. -/
def GRID_SIZE : Nat := 3

/-- `WIN_PATTERNS` of `src/constants/game-config.ts`: 3 rows, 3 columns,
main diagonal, anti-diagonal, indexed 0-7 in this order. -/
def WIN_PATTERNS : List (List CellPosition) :=
  [ [⟨0, 0⟩, ⟨0, 1⟩, ⟨0, 2⟩],
    [⟨1, 0⟩, ⟨1, 1⟩, ⟨1, 2⟩],
    [⟨2, 0⟩, ⟨2, 1⟩, ⟨2, 2⟩],
    [⟨0, 0⟩, ⟨1, 0⟩, ⟨2, 0⟩],
    [⟨0, 1⟩, ⟨1, 1⟩, ⟨2, 1⟩],
    [⟨0, 2⟩, ⟨1, 2⟩, ⟨2, 2⟩],
    [⟨0, 0⟩, ⟨1, 1⟩, ⟨2, 2⟩],
    [⟨0, 2⟩, ⟨1, 1⟩, ⟨2, 0⟩] ]

/-- The pattern at a (JavaScript `number`) index; in the source this is the
array access `WIN_PATTERNS[patternIndex]`, always used with indices 0-7. -/
def winPattern (i : Int) : List CellPosition :=
  WIN_PATTERNS.getD i.toNat []

/-- Modelled from the spec: the board is "an ordered collection of exactly
9 cells, each cell holding one of X, O, EMPTY, addressable by (row, col)";
`getCell` (imported from `models/board` but not present in the sources)
reads the cell at `(row, col)`. Out-of-range access, undefined in the
source, is modelled as an empty cell; no verified property exercises it. -/
def getCell (board : Board) (row col : Int) : Cell :=
  ((board.getD row.toNat []).getD col.toNat { piece := none })

/-- Modelled from the spec: `setCellValue` (imported from `models/board`
but not present in the sources) places a mark, producing the board with the
cell at `(row, col)` holding `symbol`; used only at validated in-range
positions. -/
def setCellValue (board : Board) (row col : Int) (symbol : PlayerSymbol) :
    Board :=
  board.set row.toNat ((board.getD row.toNat []).set col.toNat
    { piece := some symbol })

/-- `isValidPosition` of the game-over detection data model. -/
def isValidPosition (position : CellPosition) (gridSize : Nat) : Bool :=
  decide (position.row ≥ 0) && decide (position.row < (gridSize : Int)) &&
    decide (position.col ≥ 0) && decide (position.col < (gridSize : Int))

/-- `WinResult` of `win-detector.ts`. -/
structure WinResult where
  winner : PlayerSymbol
  winningLine : List CellPosition
deriving DecidableEq, Repr

/-- `isWinningLine` of `win-detector.ts`: all three cells of the pattern
hold the given player's symbol. -/
def isWinningLine (board : Board) (pattern : List CellPosition)
    (player : PlayerSymbol) : Bool :=
  pattern.all (fun pos => decide ((getCell board pos.row pos.col).piece = some player))

/-- `getRelevantPatternIndices` of `win-detector.ts`: the row pattern, the
column pattern, and the diagonal patterns through the last move. -/
def getRelevantPatternIndices (lastMove : CellPosition) : List Int :=
  [lastMove.row, 3 + lastMove.col] ++
    (if lastMove.row = lastMove.col then [6] else []) ++
    (if lastMove.row + lastMove.col = 2 then [7] else [])

/-- `checkWin` of `win-detector.ts`: read the player at the last move,
then return the first relevant pattern fully held by that player. -/
def checkWin (board : Board) (lastMove : CellPosition) : Option WinResult :=
  match (getCell board lastMove.row lastMove.col).piece with
  | none => none
  | some player =>
    match (getRelevantPatternIndices lastMove).find?
        (fun patternIndex => isWinningLine board (winPattern patternIndex) player) with
    | some patternIndex =>
      some { winner := player, winningLine := winPattern patternIndex }
    | none => none

/-- `checkDraw` of `win-detector.ts`: scan the `board.length` × `board.length`
grid and return false at the first empty cell. -/
def checkDraw (board : Board) : Bool :=
  (List.range board.length).all (fun row =>
    (List.range board.length).all (fun col =>
      !(decide ((getCell board (row : Int) (col : Int)).piece = none))))

/-- `MoveFailureReason` extended by the game-over detection feature. -/
inductive MoveFailureReason where
  | cellOccupied
  | moveInProgress
  | invalidPosition
  | boardFull
  | gameOver
deriving DecidableEq, Repr

/-- `MoveResult` of the extended move gate. -/
inductive MoveResult where
  | success
  | failure (reason : MoveFailureReason)
deriving DecidableEq, Repr

/-- `GameState` extended by the game-over detection data model: adds
`status` and the optional `winningLine`. -/
structure GameState where
  board : Board
  currentTurn : PlayerSymbol
  moveInProgress : Bool
  status : GameStatus
  winningLine : Option (List CellPosition)
deriving DecidableEq, Repr

/-- The extended `validateMove` of `move-validator.ts`: game-over check
first, then the move-processing lock, bounds, and occupancy. -/
def validateMove (state : GameState) (position : CellPosition) : MoveResult :=
  if state.status ≠ .ACTIVE then
    .failure .gameOver
  else if state.moveInProgress then
    .failure .moveInProgress
  else if !(isValidPosition position GRID_SIZE) then
    .failure .invalidPosition
  else if (getCell state.board position.row position.col).piece ≠ none then
    .failure .cellOccupied
  else
    .success

/-- The extended `processMove` of `state-transitions.ts`: validate, place
the mark, check win, then draw, and update status accordingly; an invalid
move returns the state unchanged. -/
def processMove (state : GameState) (position : CellPosition) : GameState :=
  match validateMove state position with
  | .failure _ => state
  | .success =>
    let newBoard := setCellValue state.board position.row position.col
      state.currentTurn
    match checkWin newBoard position with
    | some winResult =>
      { state with
        board := newBoard,
        status := if winResult.winner = .X then .X_WON else .O_WON,
        winningLine := some winResult.winningLine,
        moveInProgress := false }
    | none =>
      if checkDraw newBoard then
        { state with
          board := newBoard,
          status := .DRAW,
          moveInProgress := false }
      else
        { state with
          board := newBoard,
          currentTurn := if state.currentTurn = .X then .O else .X,
          moveInProgress := false,
          status := .ACTIVE }

end Core

namespace Spec

/-- Modelled from the spec's words, for the refinement comparison of the
reduced win check: "a naive scan of all 8 WIN_PATTERNS finds some pattern
fully occupied by a single non-empty symbol". -/
def naiveScanWin (board : Core.Board) : Bool :=
  Core.WIN_PATTERNS.any (fun pattern =>
    [PlayerSymbol.X, PlayerSymbol.O].any (fun s =>
      pattern.all (fun q =>
        decide ((Core.getCell board q.row q.col).piece = some s))))

/-- The board with the cell at `(row, col)` emptied; used to state the
"no win without the last move" premise of the reduced-check completeness
claim. -/
def clearCell (board : Core.Board) (row col : Int) : Core.Board :=
  board.set row.toNat
    ((board.getD row.toNat []).set col.toNat { piece := none })

end Spec

namespace Examples

/-- A cell holding `X`. -/
def cX : Core.Cell := { piece := some .X }

/-- A cell holding `O`. -/
def cO : Core.Cell := { piece := some .O }

/-- An empty cell. -/
def cE : Core.Cell := { piece := none }

/-- A board whose every cell holds `X`: several win patterns are complete
at once. -/
def allX : Core.Board := [[cX, cX, cX], [cX, cX, cX], [cX, cX, cX]]

/-- The full no-win board `[[X,O,X],[O,X,O],[O,X,O]]` of the spec's
second concrete scenario. -/
def drawBoard : Core.Board := [[cX, cO, cX], [cO, cX, cO], [cO, cX, cO]]

/-- The board `[[X,O,X],[O,X,O],[O,X,_]]` of the spec's third concrete
scenario: `X` at `(2,2)` completes both the final fill and the main
diagonal. -/
def diagBoard : Core.Board := [[cX, cO, cX], [cO, cX, cO], [cO, cX, cE]]

/-- The active state from which `X` plays the spec's third scenario. -/
def diagState : Core.GameState :=
  { board := diagBoard, currentTurn := .X, moveInProgress := false,
    status := .ACTIVE, winningLine := none }

/-- The board `[[X,X,X],[O,O,_],[_,_,_]]` of the spec's first concrete
scenario: the top row is a win for `X` and no other line is complete. -/
def rowWinBoard : Core.Board := [[cX, cX, cX], [cO, cO, cE], [cE, cE, cE]]

/-- An empty 3x3 detection-core board. -/
def emptyBoard : Core.Board := [[cE, cE, cE], [cE, cE, cE], [cE, cE, cE]]

/-- A state already decided for `O`, for the terminal-status claims. -/
def oWonState : Core.GameState :=
  { board := emptyBoard, currentTurn := .X, moveInProgress := false,
    status := .O_WON, winningLine := none }

end Examples

section BaseTheorems

/-- C8: rejection is atomic — whenever move validation fails, for any
rejection reason, `processMove` returns its input state unchanged (board,
current turn, and every other field are those of the input). -/
theorem processMove_rejected_unchanged (state : Base.GameState)
    (position : CellPosition) (r : Base.MoveFailureReason)
    (h : Base.validateMove state position = .failure r) :
    Base.processMove state position = state := by
  unfold Base.processMove
  rw [h]

/-- Witness for C8 at a concrete rejected move: a move-in-progress state. -/
theorem processMove_rejected_unchanged_witness :
    Base.validateMove
      { board := Base.createEmptyBoard 3, currentTurn := .X,
        moveInProgress := true } ⟨1, 1⟩ = .failure .moveInProgress ∧
    Base.processMove
      { board := Base.createEmptyBoard 3, currentTurn := .X,
        moveInProgress := true } ⟨1, 1⟩ =
      { board := Base.createEmptyBoard 3, currentTurn := .X,
        moveInProgress := true } :=
  ⟨by decide, processMove_rejected_unchanged _ _ .moveInProgress (by decide)⟩

/-- C9: frame property of `updateBoardWithMove` — the size field is kept,
the cell list keeps its length, every cell keeps its position, every cell
at the target position receives the symbol, and every cell at a different
position is returned identically. -/
theorem updateBoardWithMove_frame (board : Base.Board)
    (position : CellPosition) (symbol : PlayerSymbol) :
    (Base.updateBoardWithMove board position symbol).size = board.size ∧
    (Base.updateBoardWithMove board position symbol).cells.length =
      board.cells.length ∧
    ∀ (i : Nat) (cell cell' : Base.Cell),
      board.cells.get? i = some cell →
      (Base.updateBoardWithMove board position symbol).cells.get? i =
        some cell' →
      cell'.position = cell.position ∧
      (cell.position = position → cell'.value = some symbol) ∧
      (cell.position ≠ position → cell' = cell) := by
  refine ⟨rfl, by simp [Base.updateBoardWithMove], ?_⟩
  intro i cell cell' hget hget'
  have hmap : (Base.updateBoardWithMove board position symbol).cells.get? i =
      (board.cells.get? i).map (fun cell =>
        if cell.position.row = position.row ∧
            cell.position.col = position.col then
          { cell with value := some symbol }
        else cell) := by
    simp [Base.updateBoardWithMove]
  rw [hmap, hget] at hget'
  injection hget' with hget'
  subst hget'
  by_cases hpos : cell.position.row = position.row ∧ cell.position.col = position.col
  · refine ⟨by simp [hpos], fun _ => by simp [hpos], fun hne => absurd ?_ hne⟩
    obtain ⟨h1, h2⟩ := hpos
    calc cell.position = ⟨cell.position.row, cell.position.col⟩ := rfl
      _ = ⟨position.row, position.col⟩ := by rw [h1, h2]
      _ = position := rfl
  · refine ⟨by simp [hpos], fun heq => absurd ?_ hpos, fun _ => by simp [hpos]⟩
    subst heq
    exact ⟨rfl, rfl⟩

/-- Witness for C9 at a concrete board, position and cell index. -/
theorem updateBoardWithMove_frame_witness :
    (Base.createEmptyBoard 3).cells.get? 4 =
      some { value := none, position := ⟨1, 1⟩ } ∧
    (Base.updateBoardWithMove (Base.createEmptyBoard 3) ⟨1, 1⟩ .X).cells.get? 4 =
      some { value := some .X, position := ⟨1, 1⟩ } ∧
    ({ value := some PlayerSymbol.X, position := (⟨1, 1⟩ : CellPosition) } :
        Base.Cell).position =
      ({ value := none, position := (⟨1, 1⟩ : CellPosition) } :
        Base.Cell).position := by
  refine ⟨by decide, by decide, ?_⟩
  exact ((updateBoardWithMove_frame (Base.createEmptyBoard 3) ⟨1, 1⟩ .X).2.2 4
    { value := none, position := ⟨1, 1⟩ }
    { value := some .X, position := ⟨1, 1⟩ } (by decide) (by decide)).1

/-- C10: the rejection reason `board-full` is dead — every failure result
of the implemented `validateMove` carries `move-in-progress`,
`invalid-position`, or `cell-occupied`, never `board-full`. -/
theorem validateMove_boardFull_dead (state : Base.GameState)
    (position : CellPosition) (r : Base.MoveFailureReason)
    (h : Base.validateMove state position = .failure r) :
    (r = .moveInProgress ∨ r = .invalidPosition ∨ r = .cellOccupied) ∧
      r ≠ .boardFull := by
  unfold Base.validateMove at h
  split at h
  · cases h
    exact ⟨Or.inl rfl, by decide⟩
  · split at h
    · cases h
      exact ⟨Or.inr (Or.inl rfl), by decide⟩
    · split at h
      · split at h
        · cases h
          exact ⟨Or.inr (Or.inr rfl), by decide⟩
        · cases h
      · cases h

/-- Witness for C10 at a concrete failing move (out of bounds). -/
theorem validateMove_boardFull_dead_witness :
    Base.validateMove
      { board := Base.createEmptyBoard 3, currentTurn := .X,
        moveInProgress := false } ⟨5, 0⟩ = .failure .invalidPosition ∧
    ((Base.MoveFailureReason.invalidPosition = .moveInProgress ∨
        Base.MoveFailureReason.invalidPosition = .invalidPosition ∨
        Base.MoveFailureReason.invalidPosition = .cellOccupied) ∧
      Base.MoveFailureReason.invalidPosition ≠ .boardFull) :=
  ⟨by decide, validateMove_boardFull_dead
    { board := Base.createEmptyBoard 3, currentTurn := .X,
      moveInProgress := false } ⟨5, 0⟩ .invalidPosition (by decide)⟩

end BaseTheorems

section CoreHelpers

/-- Any move in a non-ACTIVE state fails the extended gate with
`game-over` (the status check comes first). -/
theorem core_validateMove_of_terminal (state : Core.GameState)
    (position : CellPosition) (h : state.status ≠ .ACTIVE) :
    Core.validateMove state position = .failure .gameOver := by
  unfold Core.validateMove
  rw [if_pos h]

/-- `processMove` on a non-ACTIVE state is the identity. -/
theorem core_processMove_of_terminal (state : Core.GameState)
    (position : CellPosition) (h : state.status ≠ .ACTIVE) :
    Core.processMove state position = state := by
  unfold Core.processMove
  rw [core_validateMove_of_terminal state position h]

/-- Soundness of the reduced index set: for an in-bounds cell, every
relevant index is in `{0..7}` and its pattern contains the cell. -/
theorem core_relevant_sound (r c : Int) (hr0 : 0 ≤ r) (hr3 : r < 3)
    (hc0 : 0 ≤ c) (hc3 : c < 3) :
    ∀ i ∈ Core.getRelevantPatternIndices ⟨r, c⟩,
      0 ≤ i ∧ i < 8 ∧ (⟨r, c⟩ : CellPosition) ∈ Core.winPattern i := by
  interval_cases r <;> interval_cases c <;> decide

/-- Completeness of the reduced index set: every pattern through a cell is
among the cell's relevant indices. -/
theorem core_relevant_complete (i : Int) (hi0 : 0 ≤ i) (hi8 : i < 8) :
    ∀ p ∈ Core.winPattern i, i ∈ Core.getRelevantPatternIndices p := by
  interval_cases i <;> decide

/-- Every position of every win pattern is in bounds. -/
theorem core_pattern_mem_bounds (i : Int) (hi0 : 0 ≤ i) (hi8 : i < 8) :
    ∀ p ∈ Core.winPattern i,
      0 ≤ p.row ∧ p.row < 3 ∧ 0 ≤ p.col ∧ p.col < 3 := by
  interval_cases i <;> decide

/-- If the moved cell holds `player` and some relevant pattern is fully
held by `player`, `checkWin` returns a result: the winner is `player` and
the winning line is some relevant pattern fully held by `player`. -/
theorem core_checkWin_of_mem (board : Core.Board) (p : CellPosition)
    (player : PlayerSymbol)
    (hcell : (Core.getCell board p.row p.col).piece = some player)
    (i : Int) (hi : i ∈ Core.getRelevantPatternIndices p)
    (hwin : Core.isWinningLine board (Core.winPattern i) player = true) :
    ∃ result, Core.checkWin board p = some result ∧
      result.winner = player ∧
      ∃ j, j ∈ Core.getRelevantPatternIndices p ∧
        Core.isWinningLine board (Core.winPattern j) player = true ∧
        result.winningLine = Core.winPattern j := by
  have hsome : ((Core.getRelevantPatternIndices p).find?
      (fun patternIndex =>
        Core.isWinningLine board (Core.winPattern patternIndex) player)).isSome := by
    rw [List.find?_isSome]
    exact ⟨i, hi, hwin⟩
  obtain ⟨j, hj⟩ := Option.isSome_iff_exists.mp hsome
  refine ⟨{ winner := player, winningLine := Core.winPattern j }, ?_, rfl, j,
    List.mem_of_find?_eq_some hj, ?_, rfl⟩
  · unfold Core.checkWin
    rw [hcell]
    dsimp only
    rw [hj]
  · simpa using List.find?_some hj

end CoreHelpers

section CoreClaims

/-- C6: for every game state whose status is not ACTIVE and every target
position, the extended move gate rejects with the distinct reason
`game-over`, different from `cell-occupied` and from `invalid-position`
(the out-of-bounds reason). -/
theorem validateMove_rejects_when_game_over (state : Core.GameState)
    (position : CellPosition) (h : state.status ≠ .ACTIVE) :
    Core.validateMove state position = .failure .gameOver ∧
    Core.MoveFailureReason.gameOver ≠ .cellOccupied ∧
    Core.MoveFailureReason.gameOver ≠ .invalidPosition :=
  ⟨core_validateMove_of_terminal state position h, by decide, by decide⟩

/-- Witness for C6: a decided game rejects a center move with `game-over`. -/
theorem validateMove_rejects_when_game_over_witness :
    Core.validateMove Examples.oWonState ⟨1, 1⟩ = .failure .gameOver ∧
    Core.MoveFailureReason.gameOver ≠ .cellOccupied ∧
    Core.MoveFailureReason.gameOver ≠ .invalidPosition :=
  validateMove_rejects_when_game_over Examples.oWonState ⟨1, 1⟩ (by decide)

/-- C3: the terminal statuses are absorbing — from a state whose status is
`X_WON`, `O_WON` or `DRAW`, any sequence of further `processMove`
invocations returns the state unchanged (status and every other field). -/
theorem terminal_status_absorbing (state : Core.GameState)
    (h : state.status = .X_WON ∨ state.status = .O_WON ∨
      state.status = .DRAW)
    (moves : List CellPosition) :
    moves.foldl Core.processMove state = state := by
  have hne : state.status ≠ .ACTIVE := by
    rcases h with h | h | h <;> rw [h] <;> decide
  induction moves with
  | nil => rfl
  | cons m ms ih =>
    rw [List.foldl_cons, core_processMove_of_terminal state m hne]
    exact ih

/-- Witness for C3: three further attempted moves on a decided game leave
the state untouched. -/
theorem terminal_status_absorbing_witness :
    [(⟨0, 0⟩ : CellPosition), ⟨5, 5⟩, ⟨1, 1⟩].foldl Core.processMove
      Examples.oWonState = Examples.oWonState :=
  terminal_status_absorbing Examples.oWonState (Or.inr (Or.inl rfl))
    [⟨0, 0⟩, ⟨5, 5⟩, ⟨1, 1⟩]

/-- C7: for every in-bounds cell, `getRelevantPatternIndices` returns a
subset of `{0..7}` each of whose patterns contains the cell, with exactly
3 indices for a corner, exactly the indices `[1,4,6,7]` for the center,
and exactly 2 indices for an edge cell. -/
theorem getRelevantPatternIndices_spec (r c : Int) (hr0 : 0 ≤ r)
    (hr3 : r < 3) (hc0 : 0 ≤ c) (hc3 : c < 3) :
    (∀ i ∈ Core.getRelevantPatternIndices ⟨r, c⟩,
      0 ≤ i ∧ i < 8 ∧ (⟨r, c⟩ : CellPosition) ∈ Core.winPattern i) ∧
    (((r = 0 ∨ r = 2) ∧ (c = 0 ∨ c = 2)) →
      (Core.getRelevantPatternIndices ⟨r, c⟩).length = 3) ∧
    ((r = 1 ∧ c = 1) →
      Core.getRelevantPatternIndices ⟨r, c⟩ = [1, 4, 6, 7]) ∧
    (((r = 1 ∧ c ≠ 1) ∨ (r ≠ 1 ∧ c = 1)) →
      (Core.getRelevantPatternIndices ⟨r, c⟩).length = 2) := by
  interval_cases r <;> interval_cases c <;> exact (by decide)

/-- Witness for C7: the center cell yields exactly the four patterns
`[1, 4, 6, 7]`. -/
theorem getRelevantPatternIndices_spec_witness :
    Core.getRelevantPatternIndices ⟨1, 1⟩ = [1, 4, 6, 7] :=
  (getRelevantPatternIndices_spec 1 1 (by decide) (by decide) (by decide)
    (by decide)).2.2.1 ⟨rfl, rfl⟩

/-- C5: on a well-formed 3x3 board, `checkDraw` returns true exactly when
every one of the 9 cells is non-empty; the characterization makes no
reference to win patterns (`checkDraw` performs no win checking). -/
theorem checkDraw_iff_board_full (board : Core.Board)
    (hlen : board.length = 3) (hrows : ∀ row ∈ board, row.length = 3) :
    (Core.checkDraw board = true ↔
      ∀ (r c : Nat), r < 3 → c < 3 →
        (Core.getCell board (r : Int) (c : Int)).piece ≠ none) := by
  unfold Core.checkDraw
  rw [hlen]
  constructor
  · intro h r c hr hc
    simp only [List.all_eq_true, List.mem_range] at h
    simpa using h r hr c hc
  · intro h
    simp only [List.all_eq_true, List.mem_range]
    intro r hr c hc
    simpa using h r c hr hc

/-- Witness for C5: the full no-win board of the spec's second scenario. -/
theorem checkDraw_iff_board_full_witness :
    Core.checkDraw Examples.drawBoard = true ↔
      ∀ (r c : Nat), r < 3 → c < 3 →
        (Core.getCell Examples.drawBoard (r : Int) (c : Int)).piece ≠ none :=
  checkDraw_iff_board_full Examples.drawBoard (by decide) (by decide)

end CoreClaims

section DetectorHelpers

/-- Two cell positions are equal exactly when both coordinates agree. -/
theorem cellPosition_eq_iff (p q : CellPosition) :
    p = q ↔ (p.row = q.row ∧ p.col = q.col) := by
  cases p
  cases q
  simp [CellPosition.mk.injEq]

/-- Inversion for `checkWin`: a returned result means the moved cell holds
some player and some relevant pattern is fully held by that player. -/
theorem core_checkWin_some_inv (board : Core.Board) (p : CellPosition)
    (result : Core.WinResult) (h : Core.checkWin board p = some result) :
    ∃ player, (Core.getCell board p.row p.col).piece = some player ∧
      result.winner = player ∧
      ∃ j ∈ Core.getRelevantPatternIndices p,
        Core.isWinningLine board (Core.winPattern j) player = true ∧
        result.winningLine = Core.winPattern j := by
  unfold Core.checkWin at h
  split at h
  · cases h
  · rename_i player hcell
    split at h
    · rename_i patternIndex hfind
      injection h with h
      subst h
      exact ⟨player, hcell, rfl, patternIndex,
        List.mem_of_find?_eq_some hfind,
        by simpa using List.find?_some hfind, rfl⟩
    · cases h

/-- A fully-held pattern is what `isWinningLine` decides. -/
theorem core_isWinningLine_iff (board : Core.Board)
    (pattern : List CellPosition) (player : PlayerSymbol) :
    Core.isWinningLine board pattern player = true ↔
      ∀ q ∈ pattern, (Core.getCell board q.row q.col).piece = some player := by
  unfold Core.isWinningLine
  simp [List.all_eq_true]

/-- The naive scan succeeds exactly when some indexed pattern is fully
occupied by a single symbol. -/
theorem spec_naiveScanWin_iff (board : Core.Board) :
    Spec.naiveScanWin board = true ↔
      ∃ i : Int, 0 ≤ i ∧ i < 8 ∧ ∃ s : PlayerSymbol,
        ∀ q ∈ Core.winPattern i,
          (Core.getCell board q.row q.col).piece = some s := by
  unfold Spec.naiveScanWin
  rw [List.any_eq_true]
  constructor
  · rintro ⟨pattern, hmem, hany⟩
    rw [List.any_eq_true] at hany
    obtain ⟨s, -, hall⟩ := hany
    rw [List.all_eq_true] at hall
    obtain ⟨i, hlt, hpat⟩ := List.mem_iff_getElem.mp hmem
    refine ⟨(i : Int), by omega, ?_, s, ?_⟩
    · have : Core.WIN_PATTERNS.length = 8 := by decide
      omega
    · intro q hq
      have hq2 : q ∈ pattern := by
        have hwp : Core.winPattern (i : Int) = pattern := by
          unfold Core.winPattern
          rw [Int.toNat_natCast, List.getD_eq_getElem?_getD,
            List.getElem?_eq_getElem hlt, Option.getD_some, hpat]
        rw [← hwp]
        exact hq
      simpa using hall q hq2
  · rintro ⟨i, hi0, hi8, s, hall⟩
    refine ⟨Core.winPattern i, ?_, ?_⟩
    · unfold Core.winPattern
      have hlt : i.toNat < Core.WIN_PATTERNS.length := by
        have : Core.WIN_PATTERNS.length = 8 := by decide
        omega
      rw [List.getD_eq_getElem?_getD, List.getElem?_eq_getElem hlt,
        Option.getD_some]
      exact List.getElem_mem hlt
    · rw [List.any_eq_true]
      refine ⟨s, by cases s <;> decide, ?_⟩
      rw [List.all_eq_true]
      intro q hq
      simpa using hall q hq

/-- Clearing one cell leaves every other in-bounds cell unchanged. -/
theorem spec_clearCell_frame (board : Core.Board) (pr pc qr qc : Int)
    (hpr0 : 0 ≤ pr) (hpr3 : pr < 3) (hpc0 : 0 ≤ pc) (hpc3 : pc < 3)
    (hqr0 : 0 ≤ qr) (hqr3 : qr < 3) (hqc0 : 0 ≤ qc) (hqc3 : qc < 3)
    (hne : ¬(qr = pr ∧ qc = pc)) :
    Core.getCell (Spec.clearCell board pr pc) qr qc =
      Core.getCell board qr qc := by
  unfold Core.getCell Spec.clearCell
  by_cases hrow : qr = pr
  · subst hrow
    have hcne : qc ≠ pc := fun hc => hne ⟨rfl, hc⟩
    have hcnat : pc.toNat ≠ qc.toNat := by omega
    by_cases hlen : qr.toNat < board.length
    · simp only [List.getD_eq_getElem?_getD]
      rw [List.getElem?_set_eq_of_lt _ hlen, Option.getD_some,
        List.getElem?_set_ne hcnat]
    · rw [List.set_eq_of_length_le (by omega)]
  · simp only [List.getD_eq_getElem?_getD]
    rw [List.getElem?_set_ne (show pr.toNat ≠ qr.toNat by omega)]

end DetectorHelpers

section DetectorClaims

/-- C1: an accepted move in an ACTIVE state whose placement completes a
win pattern for the mover and fills the last empty cell makes
`processMove` return status `X_WON`/`O_WON` according to the mover and
never `DRAW` — win detection runs before draw detection and stops on a
win. -/
theorem processMove_win_beats_draw (state : Core.GameState)
    (pos : CellPosition)
    (hactive : state.status = .ACTIVE)
    (hvalid : Core.validateMove state pos = .success)
    (i : Int) (hi0 : 0 ≤ i) (hi8 : i < 8)
    (hmem : pos ∈ Core.winPattern i)
    (hcomp : ∀ q ∈ Core.winPattern i,
      (Core.getCell (Core.setCellValue state.board pos.row pos.col
        state.currentTurn) q.row q.col).piece = some state.currentTurn)
    (hfull : Core.checkDraw (Core.setCellValue state.board pos.row pos.col
      state.currentTurn) = true) :
    (Core.processMove state pos).status =
      (if state.currentTurn = .X then Core.GameStatus.X_WON
       else Core.GameStatus.O_WON) ∧
    (Core.processMove state pos).status ≠ Core.GameStatus.DRAW := by
  have hcell : (Core.getCell (Core.setCellValue state.board pos.row pos.col
      state.currentTurn) pos.row pos.col).piece = some state.currentTurn :=
    hcomp pos hmem
  have hwin : Core.isWinningLine
      (Core.setCellValue state.board pos.row pos.col state.currentTurn)
      (Core.winPattern i) state.currentTurn = true :=
    (core_isWinningLine_iff _ _ _).mpr hcomp
  have hrel : i ∈ Core.getRelevantPatternIndices pos :=
    core_relevant_complete i hi0 hi8 pos hmem
  obtain ⟨result, hck, hwinner, -⟩ :=
    core_checkWin_of_mem _ pos state.currentTurn hcell i hrel hwin
  have hpm : (Core.processMove state pos).status =
      (if result.winner = .X then Core.GameStatus.X_WON
       else Core.GameStatus.O_WON) := by
    unfold Core.processMove
    rw [hvalid]
    dsimp only
    rw [hck]
  rw [hpm, hwinner]
  refine ⟨rfl, ?_⟩
  cases state.currentTurn <;> decide

/-- Witness for C1: the spec's third scenario — `X` at `(2,2)` on
`[[X,O,X],[O,X,O],[O,X,_]]` completes both the final fill and the main
diagonal, and the result is `X_WON`, not `DRAW`. -/
theorem processMove_win_beats_draw_witness :
    (Core.processMove Examples.diagState ⟨2, 2⟩).status =
      (if Examples.diagState.currentTurn = .X then Core.GameStatus.X_WON
       else Core.GameStatus.O_WON) ∧
    (Core.processMove Examples.diagState ⟨2, 2⟩).status ≠
      Core.GameStatus.DRAW :=
  processMove_win_beats_draw Examples.diagState ⟨2, 2⟩ rfl (by decide)
    6 (by decide) (by decide) (by decide) (by decide) (by decide)

/-- C2 counterexample: on the all-`X` board, taking `P` to be the main
diagonal (pattern 6) and last move `(1,1)` inside `P`, every cell of `P`
holds `X` and `checkWin` does return winner `X` — but its `winningLine`
is row 1 (the first relevant pattern), which is not set-equal to `P`. -/
theorem checkWin_winningLine_counterexample :
    (∀ q ∈ Core.winPattern 6,
      (Core.getCell Examples.allX q.row q.col).piece = some PlayerSymbol.X) ∧
    (⟨1, 1⟩ : CellPosition) ∈ Core.winPattern 6 ∧
    Core.checkWin Examples.allX ⟨1, 1⟩ =
      some { winner := .X, winningLine := [⟨1, 0⟩, ⟨1, 1⟩, ⟨1, 2⟩] } ∧
    ¬(∀ q : CellPosition,
        q ∈ ([⟨1, 0⟩, ⟨1, 1⟩, ⟨1, 2⟩] : List CellPosition) ↔
        q ∈ Core.winPattern 6) := by
  refine ⟨by decide, by decide, by decide, fun h => ?_⟩
  exact absurd ((h ⟨1, 0⟩).mp (by decide)) (by decide)

/-- C2 (amended): if every cell of pattern `P` holds the same non-empty
symbol `S`, then `checkWin` from any last move inside `P` returns a result
with winner `S` whose `winningLine` is set-equal (here: equal) to some win
pattern through the last move fully held by `S` — equal to `P` itself
whenever `P` is the only such pattern. -/
theorem checkWin_complete_pattern (board : Core.Board) (S : PlayerSymbol)
    (i : Int) (hi0 : 0 ≤ i) (hi8 : i < 8)
    (hcomp : ∀ q ∈ Core.winPattern i,
      (Core.getCell board q.row q.col).piece = some S)
    (pos : CellPosition) (hpos : pos ∈ Core.winPattern i) :
    ∃ result, Core.checkWin board pos = some result ∧
      result.winner = S ∧
      ∃ j : Int, 0 ≤ j ∧ j < 8 ∧ pos ∈ Core.winPattern j ∧
        (∀ q ∈ Core.winPattern j,
          (Core.getCell board q.row q.col).piece = some S) ∧
        result.winningLine = Core.winPattern j := by
  have hcell := hcomp pos hpos
  have hwin : Core.isWinningLine board (Core.winPattern i) S = true :=
    (core_isWinningLine_iff _ _ _).mpr hcomp
  have hrel : i ∈ Core.getRelevantPatternIndices pos :=
    core_relevant_complete i hi0 hi8 pos hpos
  obtain ⟨result, hck, hwinner, j, hjrel, hjwin, hline⟩ :=
    core_checkWin_of_mem board pos S hcell i hrel hwin
  obtain ⟨hb1, hb2, hb3, hb4⟩ := core_pattern_mem_bounds i hi0 hi8 pos hpos
  obtain ⟨hj0, hj8, hjmem⟩ :=
    core_relevant_sound pos.row pos.col hb1 hb2 hb3 hb4 j hjrel
  exact ⟨result, hck, hwinner, j, hj0, hj8, hjmem,
    (core_isWinningLine_iff _ _ _).mp hjwin, hline⟩

/-- Witness for C2's amended theorem: scenario 1, top-row win at
`(0,2)`. -/
theorem checkWin_complete_pattern_witness :
    ∃ result, Core.checkWin Examples.rowWinBoard ⟨0, 2⟩ = some result ∧
      result.winner = PlayerSymbol.X ∧
      ∃ j : Int, 0 ≤ j ∧ j < 8 ∧
        (⟨0, 2⟩ : CellPosition) ∈ Core.winPattern j ∧
        (∀ q ∈ Core.winPattern j,
          (Core.getCell Examples.rowWinBoard q.row q.col).piece =
            some PlayerSymbol.X) ∧
        result.winningLine = Core.winPattern j :=
  checkWin_complete_pattern Examples.rowWinBoard .X 0 (by decide) (by decide)
    (by decide) ⟨0, 2⟩ (by decide)

/-- C4: on in-bounds last moves into a non-empty cell of a board that had
no completed pattern before that move, the reduced check (row, column,
applicable diagonals only) finds a win exactly when a naive scan of all 8
patterns finds a pattern fully occupied by a single non-empty symbol. -/
theorem checkWin_reduced_equiv_full_scan (board : Core.Board)
    (p : CellPosition)
    (hr0 : 0 ≤ p.row) (hr3 : p.row < 3) (hc0 : 0 ≤ p.col) (hc3 : p.col < 3)
    (hne : (Core.getCell board p.row p.col).piece ≠ none)
    (hprior : Spec.naiveScanWin (Spec.clearCell board p.row p.col) = false) :
    ((Core.checkWin board p).isSome ↔ Spec.naiveScanWin board = true) := by
  constructor
  · intro hsome
    obtain ⟨result, hck⟩ := Option.isSome_iff_exists.mp hsome
    obtain ⟨player, hcell, -, j, hjrel, hjwin, -⟩ :=
      core_checkWin_some_inv board p result hck
    obtain ⟨hj0, hj8, -⟩ :=
      core_relevant_sound p.row p.col hr0 hr3 hc0 hc3 j hjrel
    exact (spec_naiveScanWin_iff board).mpr
      ⟨j, hj0, hj8, player, (core_isWinningLine_iff _ _ _).mp hjwin⟩
  · intro hnaive
    obtain ⟨i, hi0, hi8, s, hall⟩ := (spec_naiveScanWin_iff board).mp hnaive
    have hpmem : p ∈ Core.winPattern i := by
      by_contra hpnot
      have hclear : ∀ q ∈ Core.winPattern i,
          (Core.getCell (Spec.clearCell board p.row p.col) q.row q.col).piece =
            some s := by
        intro q hq
        obtain ⟨hq1, hq2, hq3, hq4⟩ := core_pattern_mem_bounds i hi0 hi8 q hq
        have hqp : ¬(q.row = p.row ∧ q.col = p.col) := by
          intro ⟨he1, he2⟩
          apply hpnot
          have : q = p := (cellPosition_eq_iff q p).mpr ⟨he1, he2⟩
          rw [← this]
          exact hq
        rw [spec_clearCell_frame board p.row p.col q.row q.col hr0 hr3 hc0
          hc3 hq1 hq2 hq3 hq4 hqp]
        exact hall q hq
      have : Spec.naiveScanWin (Spec.clearCell board p.row p.col) = true :=
        (spec_naiveScanWin_iff _).mpr ⟨i, hi0, hi8, s, hclear⟩
      rw [hprior] at this
      cases this
    have hcell : (Core.getCell board p.row p.col).piece = some s :=
      hall p hpmem
    have hwin : Core.isWinningLine board (Core.winPattern i) s = true :=
      (core_isWinningLine_iff _ _ _).mpr hall
    have hrel : i ∈ Core.getRelevantPatternIndices p :=
      core_relevant_complete i hi0 hi8 p hpmem
    obtain ⟨result, hck, -⟩ :=
      core_checkWin_of_mem board p s hcell i hrel hwin
    rw [hck]
    rfl

/-- Witness for C4: scenario 1 — top-row win at `(0,2)`, no prior win once
that cell is cleared; both sides of the equivalence hold. -/
theorem checkWin_reduced_equiv_full_scan_witness :
    (Core.checkWin Examples.rowWinBoard ⟨0, 2⟩).isSome ↔
      Spec.naiveScanWin Examples.rowWinBoard = true :=
  checkWin_reduced_equiv_full_scan Examples.rowWinBoard ⟨0, 2⟩ (by decide)
    (by decide) (by decide) (by decide) (by decide) (by decide)

end DetectorClaims
